import Mathlib

/-!
Verification of `SetupFDLimits` from `proxy/limits/limits.go` of the
cloudsql-proxy repository (the limit negotiator, called
`EnsureMinimumDescriptors` in the design document).

The Go function reads the process file-descriptor rlimit pair through an
overridable `syscallGetrlimit`, and raises it through an overridable
`syscallSetrlimit`.  We embed it shallowly: the two syscalls become an
explicit `Env` describing their behaviour, the kernel limit state is passed
and returned explicitly, and every kernel call issued during a run is
recorded in a trace, tagged by the syntactic call site it came from.
-/

/-- An operating-system error value, as carried by a non-nil Go `error`
returned from a syscall. -/
abbrev OSError := String

/-- Mirror of `syscall.Rlimit`: the soft (`Cur`) and hard (`Max`) limit for
one resource class.  The Go fields are `uint64`; `SetupFDLimits` performs no
arithmetic on them, only order comparisons and assignments, so `Nat` models
every representable value exactly (no overflow can occur). -/
structure Rlimit where
  cur : Nat
  max : Nat
deriving DecidableEq, Repr

/-- The two fatal error shapes produced by `SetupFDLimits`.  The Go code
builds them with `fmt.Errorf`; each wraps the underlying OS error, and the
raise failure additionally states the attempted pair (whose `cur` field is
the requested `wantFDs`). -/
inductive SetupError where
  /-- Line 40: `failed to read rlimit for max file descriptors: %v`. -/
  | queryFailed (underlying : OSError)
  /-- Line 70: `failed to set rlimit {%v} for max file descriptors: %v`. -/
  | raiseFailed (attempted : Rlimit) (underlying : OSError)
deriving DecidableEq, Repr

/-- One kernel resource-limit call, tagged by the syntactic call site in
`limits.go` that issued it: the single `Getrlimit` site (line 39), the
privileged `Setrlimit` site (line 63), or the soft-limit-only `Setrlimit`
site (line 69). -/
inductive SysCall where
  | get
  | setPrivileged (req : Rlimit)
  | setSoft (req : Rlimit)
deriving DecidableEq, Repr

/-- Whether a kernel call is a mutation (a `Setrlimit`, from either site). -/
def SysCall.isSet : SysCall → Bool
  | .get => false
  | .setPrivileged _ => true
  | .setSoft _ => true

/-- Whether a kernel call is the `Getrlimit` read. -/
def SysCall.isGet : SysCall → Bool
  | .get => true
  | .setPrivileged _ => false
  | .setSoft _ => false

/-- Whether a kernel call came from the privileged `Setrlimit` site. -/
def SysCall.isSetPrivileged : SysCall → Bool
  | .get => false
  | .setPrivileged _ => true
  | .setSoft _ => false

/-- Whether a kernel call came from the soft-limit-only `Setrlimit` site. -/
def SysCall.isSetSoft : SysCall → Bool
  | .get => false
  | .setPrivileged _ => false
  | .setSoft _ => true

/-- Behaviour of the two overridable syscalls (`syscallGetrlimit` and
`syscallSetrlimit` in the Go source).  `getErr` is the error outcome of the
read: on `none` the read succeeds and fills the struct with the true kernel
state.  `setErr st req` is the error outcome of writing the pair `req` while
the kernel state is `st`: on `none` the kernel adopts `req`. -/
structure Env where
  getErr : Option OSError
  setErr : Rlimit → Rlimit → Option OSError

/-- What one run of `SetupFDLimits` produces: the returned Go `error`
(`none` models `nil`, i.e. success), the kernel limit state after the run,
and the trace of kernel calls issued, in order. -/
structure Outcome where
  result : Option SetupError
  limits : Rlimit
  calls : List SysCall
deriving DecidableEq, Repr

/-- Lines 69–74 of `limits.go`: the soft-limit-only `Setrlimit` call site.
It is reached either directly (when the queried hard ceiling is already at
least `wantFDs`) or after a failed privileged attempt.  `st` is the kernel
state, which a failed set has not changed; the candidate pair reuses the
originally queried hard limit `st.max` as ceiling (the Go code mutates only
`rlim.Cur` of the struct filled by `Getrlimit`) and `wantFDs` as the new
soft value.  `pre` is the trace of kernel calls already issued. -/
def softRaise (env : Env) (st : Rlimit) (wantFDs : Nat)
    (pre : List SysCall) : Outcome :=
  let rlim' : Rlimit := ⟨wantFDs, st.max⟩
  match env.setErr st rlim' with
  | some e => ⟨some (.raiseFailed rlim' e), st, pre ++ [.setSoft rlim']⟩
  | none => ⟨none, rlim', pre ++ [.setSoft rlim']⟩

/-- `SetupFDLimits` (lines 37–75 of `limits.go`), over syscall behaviour
`env` and initial kernel limit state `st`.  Step by step as in the source:
query the current pair (fatal on failure); return success untouched when the
soft limit already covers `wantFDs`; when even the hard ceiling is short,
attempt the privileged raise of both values to `wantFDs`, returning success
immediately if the kernel accepts it and swallowing the failure otherwise;
finally attempt the soft-limit-only raise, fatal on failure. -/
def SetupFDLimits (env : Env) (st : Rlimit) (wantFDs : Nat) : Outcome :=
  match env.getErr with
  | some e => ⟨some (.queryFailed e), st, [.get]⟩
  | none =>
    let rlim := st
    if rlim.cur ≥ wantFDs then
      ⟨none, st, [.get]⟩
    else if rlim.max < wantFDs then
      let rlim2 : Rlimit := ⟨wantFDs, wantFDs⟩
      match env.setErr st rlim2 with
      | none => ⟨none, rlim2, [.get, .setPrivileged rlim2]⟩
      | some _ => softRaise env st wantFDs [.get, .setPrivileged rlim2]
    else
      softRaise env st wantFDs [.get]

/-! ### Helper lemmas (shared, not tied to a single claim) -/

/-- A successful run implies the initial kernel query succeeded. -/
theorem SetupFDLimits_success_getErr (env : Env) (st : Rlimit) (w : Nat)
    (h : (SetupFDLimits env st w).result = none) : env.getErr = none := by
  rcases hget : env.getErr with _ | e
  · rfl
  · simp [SetupFDLimits, hget] at h

/-- A successful run leaves the soft limit at least at `wantFDs`. -/
theorem SetupFDLimits_success_cur (env : Env) (st : Rlimit) (w : Nat)
    (h : (SetupFDLimits env st w).result = none) :
    w ≤ (SetupFDLimits env st w).limits.cur := by
  rcases hget : env.getErr with _ | e
  · by_cases hcur : st.cur ≥ w
    · simp [SetupFDLimits, hget, hcur]
    · by_cases hmax : st.max < w
      · rcases hpriv : env.setErr st ⟨w, w⟩ with _ | e1
        · simp [SetupFDLimits, hget, hcur, hmax, hpriv]
        · rcases hsoft : env.setErr st ⟨w, st.max⟩ with _ | e2
          · simp [SetupFDLimits, softRaise, hget, hcur, hmax, hpriv, hsoft]
          · simp [SetupFDLimits, softRaise, hget, hcur, hmax, hpriv, hsoft] at h
      · rcases hsoft : env.setErr st ⟨w, st.max⟩ with _ | e2
        · simp [SetupFDLimits, softRaise, hget, hcur, hmax, hsoft]
        · simp [SetupFDLimits, softRaise, hget, hcur, hmax, hsoft] at h
  · simp [SetupFDLimits, hget] at h

/-- The already-satisfied path: a successful query with `wantFDs` within the
soft limit returns success with no set call and unchanged state. -/
theorem SetupFDLimits_noop_eq (env : Env) (st : Rlimit) (w : Nat)
    (hget : env.getErr = none) (h : w ≤ st.cur) :
    SetupFDLimits env st w = ⟨none, st, [.get]⟩ := by
  simp [SetupFDLimits, hget, h]

/-! ### Claim theorems -/

/-- C1: for `wantFDs` strictly above the queried soft limit and at most the
queried hard limit, exactly the unprivileged soft-limit-only raise path is
taken (no privileged set call appears in the trace), and when the kernel
accepts the set, the run succeeds with the soft limit equal to `wantFDs` and
the hard limit unchanged. -/
theorem setup_unprivileged_raise_success (env : Env) (st : Rlimit) (w : Nat)
    (hget : env.getErr = none) (hcur : st.cur < w) (hmax : w ≤ st.max)
    (hset : env.setErr st ⟨w, st.max⟩ = none) :
    SetupFDLimits env st w =
      ⟨none, ⟨w, st.max⟩, [.get, .setSoft ⟨w, st.max⟩]⟩ := by
  simp [SetupFDLimits, softRaise, hget, hset, Nat.not_le.mpr hcur,
    Nat.not_lt.mpr hmax]

/-- Witness for C1: the spec scenario current=(256,1024), wantFDs=500, with
a kernel that accepts the set call. -/
theorem setup_unprivileged_raise_success_witness :
    SetupFDLimits ⟨none, fun _ _ => none⟩ ⟨256, 1024⟩ 500 =
      ⟨none, ⟨500, 1024⟩, [.get, .setSoft ⟨500, 1024⟩]⟩ :=
  setup_unprivileged_raise_success ⟨none, fun _ _ => none⟩ ⟨256, 1024⟩ 500
    rfl (by decide) (by decide) rfl

/-- C2: for `wantFDs` at most the queried soft limit, the run succeeds, the
trace holds the single get call and no set call, and the limit state is
unchanged. -/
theorem setup_noop_when_satisfied (env : Env) (st : Rlimit) (w : Nat)
    (hget : env.getErr = none) (h : w ≤ st.cur) :
    SetupFDLimits env st w = ⟨none, st, [.get]⟩ := by
  simp [SetupFDLimits, hget, h]

/-- Witness for C2: the spec scenario current=(1024,1024), wantFDs=500. -/
theorem setup_noop_when_satisfied_witness :
    SetupFDLimits ⟨none, fun _ _ => none⟩ ⟨1024, 1024⟩ 500 =
      ⟨none, ⟨1024, 1024⟩, [.get]⟩ :=
  setup_noop_when_satisfied ⟨none, fun _ _ => none⟩ ⟨1024, 1024⟩ 500
    rfl (by decide)

/-- C3: for `wantFDs` strictly above the queried hard limit, when the
privileged raise fails and the soft-limit-only set (with ceiling the
original queried maximum) also fails, the run returns the raise-failure
error stating the attempted pair (whose soft field is the requested value)
and wrapping the last underlying OS error, with the kernel limits unchanged
from their queried values. -/
theorem setup_raise_failed (env : Env) (st : Rlimit) (w : Nat)
    (e1 e2 : OSError)
    (hget : env.getErr = none) (hinv : st.cur ≤ st.max) (hmax : st.max < w)
    (hpriv : env.setErr st ⟨w, w⟩ = some e1)
    (hsoft : env.setErr st ⟨w, st.max⟩ = some e2) :
    SetupFDLimits env st w =
      ⟨some (.raiseFailed ⟨w, st.max⟩ e2), st,
        [.get, .setPrivileged ⟨w, w⟩, .setSoft ⟨w, st.max⟩]⟩ := by
  have hcur : ¬ st.cur ≥ w := by omega
  simp [SetupFDLimits, softRaise, hget, hcur, hmax, hpriv, hsoft]

/-- Witness for C3: the spec scenario current=(256,1024), wantFDs=2048,
with a kernel that rejects every set call (privilege unavailable). -/
theorem setup_raise_failed_witness :
    SetupFDLimits ⟨none, fun _ _ => some "EPERM"⟩ ⟨256, 1024⟩ 2048 =
      ⟨some (.raiseFailed ⟨2048, 1024⟩ "EPERM"), ⟨256, 1024⟩,
        [.get, .setPrivileged ⟨2048, 2048⟩, .setSoft ⟨2048, 1024⟩]⟩ :=
  setup_raise_failed ⟨none, fun _ _ => some "EPERM"⟩ ⟨256, 1024⟩ 2048
    "EPERM" "EPERM" rfl (by decide) (by decide) rfl rfl

/-- C4: for `wantFDs` strictly above the queried hard limit, when the
privileged set call with the pair (wantFDs, wantFDs) succeeds, the run
returns success immediately with no further set call, and both resulting
limits equal `wantFDs`.  The hypothesis `st.cur ≤ st.max` is the kernel
invariant on the queried pair. -/
theorem setup_privileged_raise_success (env : Env) (st : Rlimit) (w : Nat)
    (hget : env.getErr = none) (hinv : st.cur ≤ st.max) (hmax : st.max < w)
    (hpriv : env.setErr st ⟨w, w⟩ = none) :
    SetupFDLimits env st w =
      ⟨none, ⟨w, w⟩, [.get, .setPrivileged ⟨w, w⟩]⟩ := by
  have hcur : ¬ st.cur ≥ w := by omega
  simp [SetupFDLimits, hget, hcur, hmax, hpriv]

/-- Witness for C4: current=(256,1024), wantFDs=2048, with a kernel that
accepts the privileged set call. -/
theorem setup_privileged_raise_success_witness :
    SetupFDLimits ⟨none, fun _ _ => none⟩ ⟨256, 1024⟩ 2048 =
      ⟨none, ⟨2048, 2048⟩, [.get, .setPrivileged ⟨2048, 2048⟩]⟩ :=
  setup_privileged_raise_success ⟨none, fun _ _ => none⟩ ⟨256, 1024⟩ 2048
    rfl (by decide) (by decide) rfl

/-- C5: when the initial kernel query fails, the run returns the fatal
query-failure error wrapping the underlying OS error, issues no set call
(the trace is the single get), and leaves the state unchanged — for every
`wantFDs`. -/
theorem setup_query_failed (env : Env) (st : Rlimit) (w : Nat) (e : OSError)
    (hget : env.getErr = some e) :
    SetupFDLimits env st w = ⟨some (.queryFailed e), st, [.get]⟩ := by
  simp [SetupFDLimits, hget]

/-- Witness for C5: the spec scenario of a failing kernel read. -/
theorem setup_query_failed_witness :
    SetupFDLimits ⟨some "EINVAL", fun _ _ => none⟩ ⟨256, 1024⟩ 500 =
      ⟨some (.queryFailed "EINVAL"), ⟨256, 1024⟩, [.get]⟩ :=
  setup_query_failed ⟨some "EINVAL", fun _ _ => none⟩ ⟨256, 1024⟩ 500
    "EINVAL" rfl

/-- C6: whenever the soft-limit-only raise is attempted — directly or after
a failed privileged attempt — the pair passed to the set call has `cur`
equal to `wantFDs` and `max` equal to the originally queried hard limit. -/
theorem setup_soft_set_uses_original_max (env : Env) (st : Rlimit) (w : Nat)
    (r : Rlimit) (hmem : SysCall.setSoft r ∈ (SetupFDLimits env st w).calls) :
    r = ⟨w, st.max⟩ := by
  rcases hget : env.getErr with _ | e
  · by_cases hcur : st.cur ≥ w
    · simp [SetupFDLimits, hget, hcur] at hmem
    · by_cases hmax : st.max < w
      · rcases hpriv : env.setErr st ⟨w, w⟩ with _ | e1
        · simp [SetupFDLimits, hget, hcur, hmax, hpriv] at hmem
        · rcases hsoft : env.setErr st ⟨w, st.max⟩ with _ | e2 <;>
          · simp [SetupFDLimits, softRaise, hget, hcur, hmax, hpriv, hsoft]
              at hmem
            exact hmem
      · rcases hsoft : env.setErr st ⟨w, st.max⟩ with _ | e2 <;>
        · simp [SetupFDLimits, softRaise, hget, hcur, hmax, hsoft] at hmem
          exact hmem
  · simp [SetupFDLimits, hget] at hmem

/-- Witness for C6: on current=(256,1024), wantFDs=500 with an accepting
kernel, the soft set call in the trace carries the pair (500, 1024). -/
theorem setup_soft_set_uses_original_max_witness :
    (⟨500, 1024⟩ : Rlimit) = ⟨500, 1024⟩ :=
  setup_soft_set_uses_original_max ⟨none, fun _ _ => none⟩ ⟨256, 1024⟩ 500
    ⟨500, 1024⟩ (by decide)

/-- C7: if a run of `SetupFDLimits` succeeds, running it again with the same
`wantFDs` against the resulting kernel state takes the no-mutation path:
it succeeds, issues only the get call, and leaves the limits unchanged. -/
theorem setup_idempotent (env : Env) (st : Rlimit) (w : Nat)
    (h : (SetupFDLimits env st w).result = none) :
    SetupFDLimits env (SetupFDLimits env st w).limits w =
      ⟨none, (SetupFDLimits env st w).limits, [.get]⟩ :=
  SetupFDLimits_noop_eq env _ w (SetupFDLimits_success_getErr env st w h)
    (SetupFDLimits_success_cur env st w h)

/-- Witness for C7: a successful raise from (256,1024) to 500 followed by a
second invocation with the same request. -/
theorem setup_idempotent_witness :
    SetupFDLimits ⟨none, fun _ _ => none⟩
        (SetupFDLimits ⟨none, fun _ _ => none⟩ ⟨256, 1024⟩ 500).limits 500 =
      ⟨none, (SetupFDLimits ⟨none, fun _ _ => none⟩ ⟨256, 1024⟩ 500).limits,
        [.get]⟩ :=
  setup_idempotent ⟨none, fun _ _ => none⟩ ⟨256, 1024⟩ 500 rfl

/-- C8: in every run, the trace holds the get call exactly once, at most one
call from each of the two set call sites, and hence at most two set calls in
total — no kernel operation is retried. -/
theorem setup_calls_bounded (env : Env) (st : Rlimit) (w : Nat) :
    ((SetupFDLimits env st w).calls.countP SysCall.isGet = 1) ∧
    ((SetupFDLimits env st w).calls.countP SysCall.isSetPrivileged ≤ 1) ∧
    ((SetupFDLimits env st w).calls.countP SysCall.isSetSoft ≤ 1) ∧
    ((SetupFDLimits env st w).calls.countP SysCall.isSet ≤ 2) := by
  rcases hget : env.getErr with _ | e
  · by_cases hcur : st.cur ≥ w
    · simp [SetupFDLimits, hget, hcur, List.countP_cons, List.countP_nil,
        SysCall.isGet, SysCall.isSetPrivileged, SysCall.isSetSoft,
        SysCall.isSet]
    · by_cases hmax : st.max < w
      · rcases hpriv : env.setErr st ⟨w, w⟩ with _ | e1
        · simp [SetupFDLimits, hget, hcur, hmax, hpriv, List.countP_cons,
            List.countP_nil, SysCall.isGet, SysCall.isSetPrivileged,
            SysCall.isSetSoft, SysCall.isSet]
        · rcases hsoft : env.setErr st ⟨w, st.max⟩ with _ | e2 <;>
            simp [SetupFDLimits, softRaise, hget, hcur, hmax, hpriv, hsoft,
              List.countP_cons, List.countP_nil, SysCall.isGet,
              SysCall.isSetPrivileged, SysCall.isSetSoft, SysCall.isSet]
      · rcases hsoft : env.setErr st ⟨w, st.max⟩ with _ | e2 <;>
          simp [SetupFDLimits, softRaise, hget, hcur, hmax, hsoft,
            List.countP_cons, List.countP_nil, SysCall.isGet,
            SysCall.isSetPrivileged, SysCall.isSetSoft, SysCall.isSet]
  · simp [SetupFDLimits, hget, List.countP_cons, List.countP_nil,
      SysCall.isGet, SysCall.isSetPrivileged, SysCall.isSetSoft,
      SysCall.isSet]

/-- C9: every pair passed to a set call has soft value `wantFDs`, strictly
above the queried soft limit, and hard value at least the queried hard
limit; consequently on success the final limits are pointwise at least the
initial ones — no path ever requests lowering either limit. -/
theorem setup_never_lowers (env : Env) (st : Rlimit) (w : Nat) :
    (∀ c ∈ (SetupFDLimits env st w).calls, ∀ r : Rlimit,
      (c = SysCall.setPrivileged r ∨ c = SysCall.setSoft r) →
        r.cur = w ∧ st.cur < r.cur ∧ st.max ≤ r.max) ∧
    ((SetupFDLimits env st w).result = none →
      st.cur ≤ (SetupFDLimits env st w).limits.cur ∧
      st.max ≤ (SetupFDLimits env st w).limits.max) := by
  rcases hget : env.getErr with _ | e
  · by_cases hcur : st.cur ≥ w
    · simp [SetupFDLimits, hget, hcur]
    · by_cases hmax : st.max < w
      · rcases hpriv : env.setErr st ⟨w, w⟩ with _ | e1
        · simp [SetupFDLimits, hget, hcur, hmax, hpriv]
          omega
        · rcases hsoft : env.setErr st ⟨w, st.max⟩ with _ | e2 <;>
          · simp [SetupFDLimits, softRaise, hget, hcur, hmax, hpriv, hsoft]
            omega
      · rcases hsoft : env.setErr st ⟨w, st.max⟩ with _ | e2 <;>
        · simp [SetupFDLimits, softRaise, hget, hcur, hmax, hsoft]
          omega
  · simp [SetupFDLimits, hget]

/-- C10: for `wantFDs = 0`, whenever the initial query succeeds the run
takes the no-mutation path for every kernel state, because the guard
compares unsigned values and `current >= 0` always holds. -/
theorem setup_want_zero (env : Env) (st : Rlimit)
    (hget : env.getErr = none) :
    SetupFDLimits env st 0 = ⟨none, st, [.get]⟩ :=
  SetupFDLimits_noop_eq env st 0 hget (Nat.zero_le _)

/-- Witness for C10: wantFDs = 0 against the state (0, 0). -/
theorem setup_want_zero_witness :
    SetupFDLimits ⟨none, fun _ _ => none⟩ ⟨0, 0⟩ 0 =
      ⟨none, ⟨0, 0⟩, [.get]⟩ :=
  setup_want_zero ⟨none, fun _ _ => none⟩ ⟨0, 0⟩ rfl
